import Mathlib

/-!
Verification of the BMS-FinanceFlow money-transfer backend.

The definitions below are a shallow embedding of the server code:
* `FxService` (server/services/fxService.ts): rate cache, rate-source
  fetch, exchange-rate lookup, fee calculation;
* `DatabaseStorage` (server/storage.ts): `createTransaction`,
  `updateTransactionStatus`, `searchTransactions`, `getLatestFxRates`,
  `updateFxRates`, beneficiary CRUD;
* the Express routes (server/routes.ts): admin status update,
  beneficiary update/delete.

JavaScript numbers on the money path are modelled as rationals (`ℚ`);
`Number(x.toFixed(2))` becomes rounding half-up at two decimals, which
agrees with `toFixed` on the positive amounts the routes accept.
Timestamps are integer milliseconds.  A JS `Record<string, number>` is
an association list keyed by currency code; JS truthiness of a looked-up
number (`!rate`) is "present and nonzero".  The database rows of one
table are a `List`; drizzle's `orderBy(desc(createdAt))` is a merge sort
by descending timestamp.
-/

namespace FinanceFlow

abbrev Currency := String

/-- A JS `Record<string, number>` of rates: association list keyed by
currency code. -/
abbrev RateTable := List (Currency × ℚ)

/-- Embeds `table[c]` in JS: the first binding for `c`, if any. -/
def lookupRate (t : RateTable) (c : Currency) : Option ℚ :=
  (t.find? (fun p => p.1 = c)).map Prod.snd

/-- JS truthiness of `rates[toCurrency]`: `undefined` and `0` are falsy. -/
def rateTruthy : Option ℚ → Bool
  | none => false
  | some q => q != 0

/-- Embeds `cacheDuration = 15 * 60 * 1000` ms (fxService.ts line 12). -/
def cacheDuration : ℤ := 15 * 60 * 1000

/-- Embeds `isCacheValid(lastUpdated)` (fxService.ts lines 95-99):
`now - lastUpdated < cacheDuration`. -/
def isCacheValid (now lastUpdated : ℤ) : Bool :=
  now - lastUpdated < cacheDuration

/-- Embeds `getFallbackRates()` (fxService.ts lines 101-115), decimal literals
as exact rationals. -/
def getFallbackRates : RateTable :=
  [("EUR", 8547/10000), ("GBP", 7834/10000), ("JPY", 14925/100),
   ("KRW", 1325), ("CAD", 135/100), ("AUD", 15234/10000),
   ("CHF", 8923/10000), ("CNY", 72456/10000), ("INR", 831245/10000),
   ("MXN", 178934/10000)]

/-- One row of the `fx_rates` table as read back by
`getLatestFxRates` (storage.ts lines 242-249): the row with the largest
`lastUpdated`, with no filter on `baseCurrency`. -/
structure FxRate where
  rates : RateTable
  lastUpdated : ℤ
deriving DecidableEq, Repr

/-- The FX-relevant store state: the latest `fx_rates` row, if any.
`getLatestFxRates` only ever reads the most recent row, so older
(audit) rows are elided. -/
structure FxState where
  cache : Option FxRate
deriving DecidableEq, Repr

/-- The JSON body of the external rate provider's response
(`ExchangeRateApiResponse`, fxService.ts lines 1-7).  `ok` is the HTTP
`response.ok` flag; `success` covers a missing field (JS `undefined` is
falsy); `rates = none` models a payload whose `rates` field is absent. -/
structure ApiResponse where
  ok : Bool
  success : Bool
  rates : Option RateTable
deriving DecidableEq, Repr

/-- The fetch-and-parse step of `getCurrentRates` (fxService.ts lines
29-41).  `resp = none` models the network call itself throwing.
Mirrors the source exactly: throw on `!response.ok`; throw on
`!data.success && data.rates`; otherwise the table is
`data.rates || this.getFallbackRates()`. -/
def fetchStep (resp : Option ApiResponse) : Except Unit RateTable :=
  match resp with
  | none => .error ()
  | some r =>
    if !r.ok then .error ()
    else if !r.success && r.rates.isSome then .error ()
    else .ok (r.rates.getD getFallbackRates)

/-- Observable effects of one `getCurrentRates` call. -/
inductive FxEvent
  | cacheRead
  | fetchAttempt
  | cacheWrite
deriving DecidableEq, Repr

/-- Embeds `getCurrentRates(baseCurrency)` (fxService.ts lines 18-60).
Returns the table, the store state after the call, and the trace of
cache/network effects.  The base currency only appears in the request
URL; the cache read (`getLatestFxRates`) does not use it.  On any throw
inside the `try` block the `catch` re-reads the cache and falls back to
the cached table, else the built-in fallback table. -/
def getCurrentRates (_baseCurrency : Currency) (s : FxState)
    (resp : Option ApiResponse) (now : ℤ) :
    RateTable × FxState × List FxEvent :=
  match s.cache with
  | some c =>
    if isCacheValid now c.lastUpdated then
      (c.rates, s, [.cacheRead])
    else
      match fetchStep resp with
      | .ok rates =>
        (rates, ⟨some ⟨rates, now⟩⟩, [.cacheRead, .fetchAttempt, .cacheWrite])
      | .error _ =>
        (c.rates, s, [.cacheRead, .fetchAttempt, .cacheRead])
  | none =>
    match fetchStep resp with
    | .ok rates =>
      (rates, ⟨some ⟨rates, now⟩⟩, [.cacheRead, .fetchAttempt, .cacheWrite])
    | .error _ =>
      (getFallbackRates, s, [.cacheRead, .fetchAttempt, .cacheRead])

/-- Embeds `getExchangeRate(fromCurrency, toCurrency)` (fxService.ts lines
62-75).  Identity short-circuits before any effect; otherwise the rate
is `getCurrentRates(from)[to]`, and a falsy entry (`!rate`) throws. -/
def getExchangeRate (fromC toC : Currency) (s : FxState)
    (resp : Option ApiResponse) (now : ℤ) :
    Except String ℚ × FxState × List FxEvent :=
  if fromC = toC then
    (.ok 1, s, [])
  else
    let res := getCurrentRates fromC s resp now
    let rate := lookupRate res.1 toC
    if rateTruthy rate then
      (.ok (rate.getD 0), res.2.1, res.2.2)
    else
      (.error "Exchange rate not available", res.2.1, res.2.2)

/-- Embeds `Number(x.toFixed(2))` on the (positive) money path: rounding
half-up at two decimals, as an exact rational. -/
def round2 (q : ℚ) : ℚ := (round (q * 100) : ℤ) / 100

/-- The record returned by `calculateFees` (fxService.ts lines 82-93). -/
structure FeeQuote where
  baseFee : ℚ
  exchangeFee : ℚ
  totalFee : ℚ
deriving DecidableEq, Repr

/-- Embeds `calculateFees(amount)` (fxService.ts lines 82-93):
`baseFee = 4.99`, `exchangeFee = (amount * 0.005).toFixed(2)`,
`totalFee = (baseFee + exchangeFee).toFixed(2)`. -/
def calculateFees (amount : ℚ) : FeeQuote :=
  let baseFee : ℚ := 499/100
  let exchangeFee := round2 (amount * (5/1000))
  let totalFee := round2 (baseFee + exchangeFee)
  ⟨baseFee, exchangeFee, totalFee⟩

/-- The typed payload `insertTransactionSchema.parse` produces, plus the
pricing fields the route adds before calling the storage layer
(routes.ts lines 246-279).  Decimal strings are modelled as the
rationals `Number(...)` parses them to. -/
structure InsertTransaction where
  beneficiaryId : String
  sourceAmount : ℚ
  sourceCurrency : String
  targetAmount : ℚ
  targetCurrency : String
  exchangeRate : ℚ
  baseFee : ℚ
  exchangeFee : ℚ
  totalFee : ℚ
  purpose : String
deriving DecidableEq, Repr

/-- A row of the `transactions` table (shared/schema.ts). -/
structure Txn where
  id : String
  userId : String
  beneficiaryId : String
  sourceAmount : ℚ
  sourceCurrency : String
  targetAmount : ℚ
  targetCurrency : String
  exchangeRate : ℚ
  baseFee : ℚ
  exchangeFee : ℚ
  totalFee : ℚ
  purpose : String
  status : String
  isHighRisk : Bool
  adminNotes : Option String
  createdAt : ℤ
  updatedAt : ℤ
deriving DecidableEq, Repr

/-- Embeds `DatabaseStorage.createTransaction` (storage.ts lines 130-144):
`isHighRisk = Number(sourceAmount) > 10000`, initial
`status = sourceAmount > 10000 ? 'pending' : 'completed'`; the database
assigns `id` and the `createdAt`/`updatedAt` defaults. -/
def createTransaction (data : InsertTransaction) (userId id : String)
    (now : ℤ) : Txn :=
  let sourceAmount := data.sourceAmount
  { id, userId, beneficiaryId := data.beneficiaryId, sourceAmount,
    sourceCurrency := data.sourceCurrency,
    targetAmount := data.targetAmount,
    targetCurrency := data.targetCurrency,
    exchangeRate := data.exchangeRate, baseFee := data.baseFee,
    exchangeFee := data.exchangeFee, totalFee := data.totalFee,
    purpose := data.purpose,
    status := if sourceAmount > 10000 then "pending" else "completed",
    isHighRisk := decide (sourceAmount > 10000),
    adminNotes := none, createdAt := now, updatedAt := now }

/-- The column overwrite of `updateTransactionStatus` (storage.ts lines
146-157).  A `none` for `adminNotes` models the JS `undefined`, which
drizzle's `set` skips, leaving the column unchanged. -/
def applyStatus (status : String) (notes : Option String) (now : ℤ)
    (t : Txn) : Txn :=
  { t with
    status := status,
    adminNotes := (match notes with | some s => some s | none => t.adminNotes),
    updatedAt := now }

/-- Embeds `DatabaseStorage.updateTransactionStatus` (storage.ts lines
146-157): update every row matching `id` (ids are unique in practice),
return the updated row if one matched. -/
def updateTransactionStatus (db : List Txn) (id status : String)
    (notes : Option String) (now : ℤ) : Option Txn × List Txn :=
  ((db.find? (fun t => t.id == id)).map (applyStatus status notes now),
   db.map (fun t => if t.id == id then applyStatus status notes now t else t))

/-- Responses of `PUT /api/admin/transactions/:id/status`. -/
inductive StatusResp
  | ok (t : Txn)
  | invalidStatus
  | notFound
deriving DecidableEq, Repr

/-- The status whitelist of the admin route (routes.ts line 389). -/
def validStatuses : List String := ["pending", "processing", "completed", "failed"]

/-- Embeds `PUT /api/admin/transactions/:id/status` (routes.ts lines 384-403):
reject a status outside the whitelist, 404 when no row matched,
otherwise overwrite unconditionally — the current status is never
inspected. -/
def adminUpdateStatusRoute (db : List Txn) (id status : String)
    (notes : Option String) (now : ℤ) : StatusResp × List Txn :=
  if !(validStatuses.contains status) then (.invalidStatus, db)
  else
    let r := updateTransactionStatus db id status notes now
    match r.1 with
    | some t => (.ok t, r.2)
    | none => (.notFound, r.2)

/-- A row of the `beneficiaries` table (shared/schema.ts). -/
structure Beneficiary where
  id : String
  userId : String
  name : String
  accountNumber : String
  country : String
  currency : String
  createdAt : ℤ
  updatedAt : ℤ
deriving DecidableEq, Repr

/-- SQL `ILIKE '%query%'`: case-insensitive substring match, stated on
the underlying character lists. -/
def containsCI (s q : String) : Bool :=
  let sl := s.toList.map Char.toLower
  let ql := q.toList.map Char.toLower
  (List.range (sl.length + 1)).any (fun i => ql.isPrefixOf (sl.drop i))

/-- Drizzle `orderBy(desc(transactions.createdAt))`. -/
def newestFirst (a b : Txn) : Bool := decide (b.createdAt ≤ a.createdAt)

/-- Sort rows newest-first, as the `ORDER BY created_at DESC` of the
transaction queries. -/
def sortByCreatedDesc (l : List Txn) : List Txn := l.mergeSort newestFirst

def dayMs : ℤ := 24 * 60 * 60 * 1000

/-- The `dateThreshold` switch of `searchTransactions` (storage.ts lines
213-229): `30days`/`90days` are relative to `now`, `year` is January 1
of the current year (`startOfYear`), anything else is `new Date(0)`. -/
def dateThreshold (dateRange : String) (now startOfYear : ℤ) : ℤ :=
  if dateRange = "30days" then now - 30 * dayMs
  else if dateRange = "90days" then now - 90 * dayMs
  else if dateRange = "year" then startOfYear
  else 0

/-- Embeds `DatabaseStorage.searchTransactions` (storage.ts lines 175-239).
With a non-empty `query` the method joins with `beneficiaries`, filters
by owner and case-insensitive name match, sorts newest-first and
RETURNS — the `dateRange` branch is never reached.  With an empty query
and a `dateRange`, it filters by owner and `createdAt >= threshold`.
(`bens.any` stands for the inner join on the primary key
`beneficiaries.id`.) -/
def searchTransactions (txns : List Txn) (bens : List Beneficiary)
    (userId query : String) (dateRange : Option String)
    (now startOfYear : ℤ) : List Txn :=
  if query ≠ "" then
    sortByCreatedDesc (txns.filter (fun t =>
      t.userId == userId &&
      bens.any (fun b => b.id == t.beneficiaryId && containsCI b.name query)))
  else
    match dateRange with
    | some dr =>
      sortByCreatedDesc (txns.filter (fun t =>
        t.userId == userId &&
        decide (dateThreshold dr now startOfYear ≤ t.createdAt)))
    | none =>
      sortByCreatedDesc (txns.filter (fun t => t.userId == userId))

/-- The typed payload of `insertBeneficiarySchema.partial().parse`:
every updatable column optional. -/
structure BenPatch where
  name : Option String
  accountNumber : Option String
  country : Option String
  currency : Option String
deriving DecidableEq, Repr

/-- Embeds `DatabaseStorage.updateBeneficiary`'s `set({...beneficiary,
updatedAt: new Date()})` (storage.ts lines 101-108) applied to one row. -/
def applyBenPatch (p : BenPatch) (now : ℤ) (b : Beneficiary) : Beneficiary :=
  { b with
    name := p.name.getD b.name,
    accountNumber := p.accountNumber.getD b.accountNumber,
    country := p.country.getD b.country,
    currency := p.currency.getD b.currency,
    updatedAt := now }

/-- Embeds `DatabaseStorage.getBeneficiaryById` (storage.ts lines 88-91). -/
def getBeneficiaryById (db : List Beneficiary) (id : String) :
    Option Beneficiary :=
  db.find? (fun b => b.id == id)

/-- Embeds `DatabaseStorage.updateBeneficiary` (storage.ts lines 101-108). -/
def updateBeneficiary (db : List Beneficiary) (id : String) (p : BenPatch)
    (now : ℤ) : Option Beneficiary × List Beneficiary :=
  ((getBeneficiaryById db id).map (applyBenPatch p now),
   db.map (fun b => if b.id == id then applyBenPatch p now b else b))

/-- Embeds `DatabaseStorage.deleteBeneficiary` (storage.ts lines 110-113):
delete matching rows, report whether any row was deleted. -/
def deleteBeneficiary (db : List Beneficiary) (id : String) :
    Bool × List Beneficiary :=
  let db2 := db.filter (fun b => !(b.id == id))
  (decide (db2.length < db.length), db2)

/-- Responses of the beneficiary routes. -/
inductive BenResp
  | ok (b : Beneficiary)
  | deleted
  | notFound
deriving DecidableEq, Repr

/-- Embeds `PUT /api/beneficiaries/:id` (routes.ts lines 176-196): look the
row up, answer 404 both when it is absent and when its `userId` is not
the caller's, and only then mutate.  After the check succeeded,
`updateBeneficiary` finds the same row, so the response body is the
patched row. -/
def updateBeneficiaryRoute (db : List Beneficiary) (callerId benId : String)
    (p : BenPatch) (now : ℤ) : BenResp × List Beneficiary :=
  match getBeneficiaryById db benId with
  | none => (.notFound, db)
  | some b =>
    if b.userId ≠ callerId then (.notFound, db)
    else (.ok (applyBenPatch p now b), (updateBeneficiary db benId p now).2)

/-- Embeds `DELETE /api/beneficiaries/:id` (routes.ts lines 198-218): same
uniform 404 on absence or foreign ownership, then delete. -/
def deleteBeneficiaryRoute (db : List Beneficiary) (callerId benId : String) :
    BenResp × List Beneficiary :=
  match getBeneficiaryById db benId with
  | none => (.notFound, db)
  | some b =>
    if b.userId ≠ callerId then (.notFound, db)
    else
      let r := deleteBeneficiary db benId
      (if r.1 then .deleted else .notFound, r.2)

/-- Sample row used by terminal-status scenarios: an already completed
transaction. -/
def txnCompleted : Txn :=
  { id := "t1", userId := "u1", beneficiaryId := "b1", sourceAmount := 500,
    sourceCurrency := "USD", targetAmount := 425, targetCurrency := "EUR",
    exchangeRate := 1, baseFee := 5, exchangeFee := 3,
    totalFee := 8, purpose := "gift", status := "completed",
    isHighRisk := false, adminNotes := none, createdAt := 0, updatedAt := 0 }

/-- Sample row used by search scenarios: a transaction created at epoch,
older than every relative date window measured from a later `now`. -/
def txnOld : Txn :=
  { id := "t9", userId := "u9", beneficiaryId := "b9", sourceAmount := 100,
    sourceCurrency := "USD", targetAmount := 85, targetCurrency := "EUR",
    exchangeRate := 1, baseFee := 5, exchangeFee := 1,
    totalFee := 6, purpose := "rent", status := "completed",
    isHighRisk := false, adminNotes := none, createdAt := 0, updatedAt := 0 }

/-- The beneficiary `txnOld` points at; its name matches the search
query `"bob"` case-insensitively. -/
def benBobby : Beneficiary :=
  { id := "b9", userId := "u9", name := "Bobby", accountNumber := "12345",
    country := "US", currency := "EUR", createdAt := 0, updatedAt := 0 }

/-- A beneficiary owned by user `"other"`, used to exercise the
ownership checks from a different caller. -/
def benOther : Beneficiary :=
  { id := "b1", userId := "other", name := "Carla", accountNumber := "99999",
    country := "DE", currency := "EUR", createdAt := 0, updatedAt := 0 }

/-! ## General lemmas about the embedded operations -/

/-- Rounding at two decimals fixes every integer number of cents. -/
theorem round2_intCents (n : ℤ) : round2 ((n : ℚ) / 100) = (n : ℚ) / 100 := by
  unfold round2
  rw [div_mul_cancel₀ _ (by norm_num : (100 : ℚ) ≠ 0), round_intCast]

/-- Merge-sorting by descending creation time sorts by descending
creation time. -/
theorem sortByCreatedDesc_sorted (l : List Txn) :
    (sortByCreatedDesc l).Sorted (fun a b => b.createdAt ≤ a.createdAt) := by
  have htrans : ∀ a b c : Txn, newestFirst a b = true → newestFirst b c = true →
      newestFirst a c = true := by
    intro a b c hab hbc
    simp only [newestFirst, decide_eq_true_eq] at *
    exact le_trans hbc hab
  have htotal : ∀ a b : Txn, (newestFirst a b || newestFirst b a) = true := by
    intro a b
    simp only [newestFirst, Bool.or_eq_true, decide_eq_true_eq]
    exact le_total b.createdAt a.createdAt
  have h := @List.sorted_mergeSort Txn newestFirst htrans htotal l
  exact List.Pairwise.imp (fun hab => by
    simpa [newestFirst, decide_eq_true_eq] using hab) h

/-- Membership survives the newest-first sort. -/
theorem mem_sortByCreatedDesc (t : Txn) (l : List Txn) :
    t ∈ sortByCreatedDesc l ↔ t ∈ l :=
  List.mem_mergeSort

/-! ## C1 -/

/-- C1: `createTransaction` sets `isHighRisk` to true exactly when the
source amount exceeds 10000 source-currency units, and the initial
status is `"pending"` exactly when the transaction is high-risk and
`"completed"` otherwise; at `sourceAmount = 10000.00` this gives
`isHighRisk = false, status = "completed"`, and at
`sourceAmount = 10000.01` it gives `isHighRisk = true,
status = "pending"`. -/
theorem createTransaction_risk_status :
    (∀ (data : InsertTransaction) (userId id : String) (now : ℤ),
      ((createTransaction data userId id now).isHighRisk = true ↔
        10000 < data.sourceAmount) ∧
      (createTransaction data userId id now).status =
        (if (createTransaction data userId id now).isHighRisk = true
          then "pending" else "completed")) ∧
    (∀ (data : InsertTransaction) (userId id : String) (now : ℤ),
      (createTransaction { data with sourceAmount := 10000 } userId id now).isHighRisk
          = false ∧
      (createTransaction { data with sourceAmount := 10000 } userId id now).status
          = "completed" ∧
      (createTransaction { data with sourceAmount := 1000001/100 } userId id now).isHighRisk
          = true ∧
      (createTransaction { data with sourceAmount := 1000001/100 } userId id now).status
          = "pending") := by
  constructor
  · intro data userId id now
    refine ⟨by simp [createTransaction], ?_⟩
    by_cases h : (10000 : ℚ) < data.sourceAmount <;>
      simp [createTransaction, h]
  · intro data userId id now
    refine ⟨?_, ?_, ?_, ?_⟩ <;> norm_num [createTransaction]

/-! ## C5 -/

/-- C5: for every positive amount `a`, `calculateFees` returns the fixed
base fee 4.99, the exchange fee `round(a * 0.005, 2)`, and a total fee
that is both `round(baseFee + exchangeFee, 2)` and exactly equal to
`baseFee + exchangeFee` (the sum of two whole-cent values needs no
further rounding); the function is pure by construction. -/
theorem calculateFees_spec (a : ℚ) (h : 0 < a) :
    (calculateFees a).baseFee = 499/100 ∧
    (calculateFees a).exchangeFee = round2 (a * (5/1000)) ∧
    (calculateFees a).totalFee = round2 (499/100 + round2 (a * (5/1000))) ∧
    (calculateFees a).totalFee =
      (calculateFees a).baseFee + (calculateFees a).exchangeFee := by
  refine ⟨rfl, rfl, rfl, ?_⟩
  show round2 (499/100 + round2 (a * (5/1000))) = 499/100 + round2 (a * (5/1000))
  have hrw : (499/100 : ℚ) + round2 (a * (5/1000)) =
      ((499 + round (a * (5/1000) * 100) : ℤ) : ℚ) / 100 := by
    unfold round2
    push_cast
    ring
  rw [hrw, round2_intCents]

/-- Witness for C5 at `a = 200`: fees are 4.99, 1.00, 5.99 and the sum
identity holds. -/
theorem calculateFees_spec_witness :
    (0 : ℚ) < 200 ∧
    ((calculateFees 200).baseFee = 499/100 ∧
     (calculateFees 200).exchangeFee = round2 (200 * (5/1000)) ∧
     (calculateFees 200).totalFee = round2 (499/100 + round2 (200 * (5/1000))) ∧
     (calculateFees 200).totalFee =
       (calculateFees 200).baseFee + (calculateFees 200).exchangeFee) :=
  ⟨by norm_num, calculateFees_spec 200 (by norm_num)⟩

/-! ## C6 -/

/-- C6: for every currency code `X`, `getExchangeRate(X, X)` returns 1,
leaves the store untouched, and performs no cache read, no fetch and no
cache write (the event trace is empty). -/
theorem getExchangeRate_identity (X : Currency) (s : FxState)
    (resp : Option ApiResponse) (now : ℤ) :
    getExchangeRate X X s resp now = (.ok 1, s, []) := by
  simp [getExchangeRate]

/-! ## C3 -/

/-- C3: `getCurrentRates` is total (it never propagates an error to its
caller — its return type carries no error case), and whenever the
rate-source fetch fails it returns the most recent cached table if one
exists, regardless of its age, and otherwise the built-in fallback
table, which is non-empty and contains EUR, GBP and JPY. -/
theorem getCurrentRates_fallback_chain (base : Currency) (s : FxState)
    (resp : Option ApiResponse) (now : ℤ)
    (hfail : fetchStep resp = .error ()) :
    (getCurrentRates base s resp now).1 =
      (match s.cache with
       | some c => c.rates
       | none => getFallbackRates) ∧
    getFallbackRates ≠ [] ∧
    lookupRate getFallbackRates "EUR" = some (8547/10000) ∧
    lookupRate getFallbackRates "GBP" = some (7834/10000) ∧
    lookupRate getFallbackRates "JPY" = some (14925/100) := by
  refine ⟨?_, by decide, by simp [lookupRate, getFallbackRates],
    by simp [lookupRate, getFallbackRates], by simp [lookupRate, getFallbackRates]⟩
  match hs : s.cache with
  | some c =>
    by_cases hv : isCacheValid now c.lastUpdated <;>
      simp [getCurrentRates, hs, hv, hfail]
  | none =>
    simp [getCurrentRates, hs, hfail]

/-- Witness for C3: a failing network call against an empty cache
yields the built-in fallback table. -/
theorem getCurrentRates_fallback_chain_witness :
    fetchStep none = .error () ∧
    ((getCurrentRates "USD" ⟨none⟩ none 0).1 =
      (match (⟨none⟩ : FxState).cache with
       | some c => c.rates
       | none => getFallbackRates) ∧
     getFallbackRates ≠ [] ∧
     lookupRate getFallbackRates "EUR" = some (8547/10000) ∧
     lookupRate getFallbackRates "GBP" = some (7834/10000) ∧
     lookupRate getFallbackRates "JPY" = some (14925/100)) :=
  ⟨rfl, getCurrentRates_fallback_chain "USD" ⟨none⟩ none 0 rfl⟩

/-! ## C4 -/

/-- C4 counterexample: a cached table can bind the target currency to
the number 0; the entry for `"EUR"` is then present, yet
`getExchangeRate` signals the rate as unavailable instead of returning
the entry, because the source tests JS truthiness (`!rate`), not
presence.  This refutes "signals RateUnavailable exactly when `to` is
absent". -/
theorem getExchangeRate_zeroRate_counterexample :
    lookupRate (getCurrentRates "USD" ⟨some ⟨[("EUR", 0)], 0⟩⟩ none 0).1 "EUR"
      = some 0 ∧
    (getExchangeRate "USD" "EUR" ⟨some ⟨[("EUR", 0)], 0⟩⟩ none 0).1 =
      .error "Exchange rate not available" := by
  constructor <;> rfl

/-- C4 (amended): for distinct currencies, `getExchangeRate` signals
`RateUnavailable` exactly when the entry for `to` in the table obtained
from `getCurrentRates(from)` is absent **or zero**; whenever the entry
is present and nonzero it is returned unchanged, never silently
defaulted. -/
theorem getExchangeRate_unavailable_iff (fromC toC : Currency)
    (s : FxState) (resp : Option ApiResponse) (now : ℤ)
    (hne : fromC ≠ toC) :
    ((getExchangeRate fromC toC s resp now).1 =
        .error "Exchange rate not available" ↔
      (lookupRate (getCurrentRates fromC s resp now).1 toC = none ∨
       lookupRate (getCurrentRates fromC s resp now).1 toC = some 0)) ∧
    (∀ r : ℚ, lookupRate (getCurrentRates fromC s resp now).1 toC = some r →
      r ≠ 0 → (getExchangeRate fromC toC s resp now).1 = .ok r) := by
  constructor
  · match hl : lookupRate (getCurrentRates fromC s resp now).1 toC with
    | none => simp [getExchangeRate, hne, hl, rateTruthy]
    | some r =>
      by_cases hr : r = 0 <;>
        simp [getExchangeRate, hne, hl, rateTruthy, hr]
  · intro r hl hr
    simp [getExchangeRate, hne, hl, rateTruthy, hr]

/-- Witness for C4 (amended): with a fresh cached table binding EUR to
0.5, `getExchangeRate("USD","EUR")` returns 0.5. -/
theorem getExchangeRate_unavailable_iff_witness :
    "USD" ≠ "EUR" ∧
    (((getExchangeRate "USD" "EUR" ⟨some ⟨[("EUR", 1/2)], 0⟩⟩ none 0).1 =
        .error "Exchange rate not available" ↔
      (lookupRate (getCurrentRates "USD" ⟨some ⟨[("EUR", 1/2)], 0⟩⟩ none 0).1 "EUR"
          = none ∨
       lookupRate (getCurrentRates "USD" ⟨some ⟨[("EUR", 1/2)], 0⟩⟩ none 0).1 "EUR"
          = some 0)) ∧
     (∀ r : ℚ,
       lookupRate (getCurrentRates "USD" ⟨some ⟨[("EUR", 1/2)], 0⟩⟩ none 0).1 "EUR"
          = some r →
       r ≠ 0 →
       (getExchangeRate "USD" "EUR" ⟨some ⟨[("EUR", 1/2)], 0⟩⟩ none 0).1 = .ok r)) :=
  ⟨by decide,
   getExchangeRate_unavailable_iff "USD" "EUR" ⟨some ⟨[("EUR", 1/2)], 0⟩⟩ none 0
     (by decide)⟩

/-! ## C7 -/

/-- C7 counterexample: an HTTP-success payload whose `rates` field is
missing is *not* signalled as a `FetchError`: the guard
`!data.success && data.rates` passes it, `data.rates || fallback`
substitutes the built-in fallback table, and `getCurrentRates` treats
this as a successful fetch — caching the fallback table and emitting a
cache write. -/
theorem fetchStep_missingRates_counterexample :
    fetchStep (some ⟨true, true, none⟩) = .ok getFallbackRates ∧
    getCurrentRates "USD" ⟨none⟩ (some ⟨true, true, none⟩) 0 =
      (getFallbackRates, ⟨some ⟨getFallbackRates, 0⟩⟩,
        [.cacheRead, .fetchAttempt, .cacheWrite]) := by
  constructor <;> rfl

/-- C7 (amended): the fetch step signals `FetchError` exactly on a
network throw, a non-success HTTP status, or a payload whose `success`
field is falsy while its `rates` field is present; a payload *missing*
the `rates` field is instead treated as a successful fetch whose table
is the built-in fallback table. -/
theorem fetchStep_error_characterization :
    (∀ r : ApiResponse,
      (fetchStep (some r) = .error () ↔
        r.ok = false ∨ (r.success = false ∧ r.rates.isSome = true))) ∧
    fetchStep none = .error () ∧
    (∀ okFlag succFlag : Bool, okFlag = true →
      fetchStep (some ⟨okFlag, succFlag, none⟩) = .ok getFallbackRates) := by
  refine ⟨?_, rfl, ?_⟩
  · intro r
    rcases r with ⟨ok, succ, rates⟩
    cases ok <;> cases succ <;> cases rates <;> simp [fetchStep]
  · intro okFlag succFlag hok
    subst hok
    cases succFlag <;> rfl

/-- Witness for C7 (amended), instantiating the one hypothesis
(`okFlag = true`) of the last conjunct at a concrete payload. -/
theorem fetchStep_error_characterization_witness :
    (fetchStep (some ⟨false, true, some [("EUR", 1/2)]⟩) = .error () ↔
      (false = false ∨ (true = false ∧ (some [("EUR", (1:ℚ)/2)]).isSome = true))) ∧
    fetchStep none = .error () ∧
    fetchStep (some ⟨true, false, none⟩) = .ok getFallbackRates :=
  ⟨fetchStep_error_characterization.1 ⟨false, true, some [("EUR", 1/2)]⟩,
   fetchStep_error_characterization.2.1,
   fetchStep_error_characterization.2.2 true false rfl⟩

/-! ## C8 -/

/-- C8: the cache lookup of `getCurrentRates` ignores the requested base
currency: whenever the single cached table is fresh (strictly younger
than 15 minutes), calls with any two base currencies — even with
different network behaviour — return that same cached table. -/
theorem getCurrentRates_ignores_base (b1 b2 : Currency) (s : FxState)
    (resp1 resp2 : Option ApiResponse) (now : ℤ) (c : FxRate)
    (hc : s.cache = some c)
    (hfresh : isCacheValid now c.lastUpdated = true) :
    (getCurrentRates b1 s resp1 now).1 = c.rates ∧
    (getCurrentRates b1 s resp1 now).1 = (getCurrentRates b2 s resp2 now).1 := by
  constructor <;> simp [getCurrentRates, hc, hfresh]

/-- Witness for C8: a fresh cached table is served verbatim for the
bases `"USD"` and `"KRW"` alike. -/
theorem getCurrentRates_ignores_base_witness :
    (FxState.mk (some ⟨[("EUR", 1/2)], 0⟩)).cache = some ⟨[("EUR", 1/2)], 0⟩ ∧
    isCacheValid 0 (FxRate.mk [("EUR", 1/2)] 0).lastUpdated = true ∧
    ((getCurrentRates "USD" ⟨some ⟨[("EUR", 1/2)], 0⟩⟩ none 0).1 =
      (FxRate.mk [("EUR", 1/2)] 0).rates ∧
     (getCurrentRates "USD" ⟨some ⟨[("EUR", 1/2)], 0⟩⟩ none 0).1 =
      (getCurrentRates "KRW" ⟨some ⟨[("EUR", 1/2)], 0⟩⟩ (some ⟨true, true, none⟩) 0).1) :=
  ⟨rfl, by decide,
   getCurrentRates_ignores_base "USD" "KRW" ⟨some ⟨[("EUR", 1/2)], 0⟩⟩
     none (some ⟨true, true, none⟩) 0 ⟨[("EUR", 1/2)], 0⟩ rfl (by decide)⟩

/-! ## C2 -/

/-- C2 counterexample: the admin status-update route moves an already
completed transaction back to `"pending"`: `"completed"` is not
enforced as a terminal status. -/
theorem adminUpdate_terminal_counterexample :
    txnCompleted.status = "completed" ∧
    (adminUpdateStatusRoute [txnCompleted] "t1" "pending" none 5).1 =
      .ok { txnCompleted with status := "pending", updatedAt := 5 } ∧
    ((adminUpdateStatusRoute [txnCompleted] "t1" "pending" none 5).2.map
        Txn.status) = ["pending"] := by
  refine ⟨rfl, ?_, ?_⟩ <;> decide

/-- C2 (amended): `completed` and `failed` are not terminal in the
code.  The admin status-update operation only checks that the new
status is one of the four known values; for every transaction in the
store — whatever its current status, including `completed` and
`failed` — it overwrites the status with the requested value. -/
theorem adminUpdate_overwrites_any_status (db : List Txn) (t : Txn)
    (newStatus : String) (notes : Option String) (now : ℤ)
    (ht : t ∈ db) (hs : newStatus ∈ validStatuses) :
    applyStatus newStatus notes now t ∈
      (adminUpdateStatusRoute db t.id newStatus notes now).2 ∧
    (applyStatus newStatus notes now t).status = newStatus := by
  refine ⟨?_, rfl⟩
  have hcontains : validStatuses.contains newStatus = true := by
    simpa using hs
  have hmem : applyStatus newStatus notes now t ∈
      (updateTransactionStatus db t.id newStatus notes now).2 := by
    have hmap := List.mem_map_of_mem
      (fun x => if x.id == t.id then applyStatus newStatus notes now x else x) ht
    simpa [updateTransactionStatus] using hmap
  have hroute : (adminUpdateStatusRoute db t.id newStatus notes now).2 =
      (updateTransactionStatus db t.id newStatus notes now).2 := by
    unfold adminUpdateStatusRoute
    rw [hcontains]
    cases hfind : (updateTransactionStatus db t.id newStatus notes now).1 <;>
      simp [hfind]
  rw [hroute]
  exact hmem

/-- Witness for C2 (amended): the completed sample transaction is moved
to `"pending"` by the admin route. -/
theorem adminUpdate_overwrites_any_status_witness :
    txnCompleted ∈ [txnCompleted] ∧ "pending" ∈ validStatuses ∧
    (applyStatus "pending" none 5 txnCompleted ∈
      (adminUpdateStatusRoute [txnCompleted] txnCompleted.id "pending" none 5).2 ∧
     (applyStatus "pending" none 5 txnCompleted).status = "pending") :=
  ⟨List.mem_singleton.mpr rfl, by simp [validStatuses],
   adminUpdate_overwrites_any_status [txnCompleted] txnCompleted "pending" none 5
     (List.mem_singleton.mpr rfl) (by simp [validStatuses])⟩

/-! ## C9 -/

/-- C9 counterexample: with both a name query (`"bob"`) and a date
range (`"30days"`) supplied, `searchTransactions` still returns a
matching transaction created 100 days before `now` — the date-range
filter is ignored whenever a non-empty query is present, so the two
filters do not both apply. -/
theorem searchTransactions_bothFilters_counterexample :
    searchTransactions [txnOld] [benBobby] "u9" "bob" (some "30days")
        (100 * dayMs) 0 = [txnOld] ∧
    txnOld.createdAt < dateThreshold "30days" (100 * dayMs) 0 := by
  constructor
  · have hq : ("bob" : String) ≠ "" := by decide
    unfold searchTransactions
    rw [if_pos hq]
    have hpos : (txnOld.userId == "u9" && [benBobby].any
        (fun b => b.id == txnOld.beneficiaryId && containsCI b.name "bob"))
        = true := by decide
    simp only [List.filter_cons, List.filter_nil, hpos, if_true]
    simp [sortByCreatedDesc]
  · decide

/-- C9 (amended): `searchTransactions` returns the owner's
transactions newest-first; when a non-empty name query is given it
keeps exactly the rows whose beneficiary name contains the query
case-insensitively and the date range is ignored; the date-range filter
applies only when no (or an empty) name query is given. -/
theorem searchTransactions_characterization (txns : List Txn)
    (bens : List Beneficiary) (u q : String) (dr : Option String)
    (now soy : ℤ) :
    (∀ t : Txn, t ∈ searchTransactions txns bens u q dr now soy ↔
      (t ∈ txns ∧ t.userId = u ∧
        (if q = "" then
          ∀ d, dr = some d → dateThreshold d now soy ≤ t.createdAt
         else
          ∃ b ∈ bens, b.id = t.beneficiaryId ∧ containsCI b.name q = true))) ∧
    (searchTransactions txns bens u q dr now soy).Sorted
      (fun a b => b.createdAt ≤ a.createdAt) := by
  constructor
  · intro t
    by_cases hq : q = ""
    · cases dr with
      | none =>
        simp [searchTransactions, hq, sortByCreatedDesc, List.mem_mergeSort,
          List.mem_filter, and_assoc]
      | some d =>
        simp [searchTransactions, hq, sortByCreatedDesc, List.mem_mergeSort,
          List.mem_filter, and_assoc]
    · simp [searchTransactions, hq, sortByCreatedDesc, List.mem_mergeSort,
        List.mem_filter, List.any_eq_true, and_assoc]
  · unfold searchTransactions
    split
    · exact sortByCreatedDesc_sorted _
    · split
      · exact sortByCreatedDesc_sorted _
      · exact sortByCreatedDesc_sorted _

/-! ## C10 -/

/-- C10: for a beneficiary update or delete, absence of the target and
ownership by a different user produce the same uniform not-found
response, and the beneficiaries table is left completely unchanged. -/
theorem beneficiaryRoutes_uniform_notFound (db : List Beneficiary)
    (callerId benId : String) (p : BenPatch) (now : ℤ)
    (h : ∀ b, getBeneficiaryById db benId = some b → b.userId ≠ callerId) :
    updateBeneficiaryRoute db callerId benId p now = (.notFound, db) ∧
    deleteBeneficiaryRoute db callerId benId = (.notFound, db) := by
  constructor
  · unfold updateBeneficiaryRoute
    cases hb : getBeneficiaryById db benId with
    | none => rfl
    | some b => simp [h b hb]
  · unfold deleteBeneficiaryRoute
    cases hb : getBeneficiaryById db benId with
    | none => rfl
    | some b => simp [h b hb]

/-- Witness for C10: caller `"me"` against a table whose only row is
owned by `"other"`: both routes answer not-found and change nothing. -/
theorem beneficiaryRoutes_uniform_notFound_witness :
    (∀ b, getBeneficiaryById [benOther] "b1" = some b → b.userId ≠ "me") ∧
    (updateBeneficiaryRoute [benOther] "me" "b1" ⟨none, none, none, none⟩ 7 =
        (.notFound, [benOther]) ∧
     deleteBeneficiaryRoute [benOther] "me" "b1" = (.notFound, [benOther])) := by
  have h : ∀ b, getBeneficiaryById [benOther] "b1" = some b → b.userId ≠ "me" := by
    intro b hb
    rw [show getBeneficiaryById [benOther] "b1" = some benOther from rfl] at hb
    injection hb with hb2
    subst hb2
    decide
  exact ⟨h, beneficiaryRoutes_uniform_notFound [benOther] "me" "b1"
    ⟨none, none, none, none⟩ 7 h⟩

end FinanceFlow
